import Mathlib

/- Verification of the shaka-scheme core subsystems: the heap-based virtual
   machine (HeapVirtualMachine.cpp), the datum parser (parser_definitions.cpp)
   and the tokenizer (Tokenizer.hpp), via a shallow embedding in Lean. -/

set_option maxRecDepth 4000

/- ===================== Data model ===================== -/

mutual

/-- Modelled from the spec: the tagged datum of base/Data.hpp is not under
    src/. Variants follow section 3 of the spec (Symbol, Number, Boolean,
    String, Character, Pair, Closure, Null, Unspecified) plus the CallFrame
    payload that HeapVirtualMachine.cpp line 128 stores into a Data node.
    Numbers are modelled as integers; the numeric tower is irrelevant to the
    claims. -/
inductive Data where
  | Symbol : String → Data
  | Number : Int → Data
  | Boolean : Bool → Data
  | String : String → Data
  | Character : Char → Data
  | Pair : Data → Data → Data
  | Null : Data
  | Unspecified : Data
  | Closure : ClosureV → Data
  | CallFrameData : FrameV → Data

/-- Closure value: captured environment, body, parameter list, and the
    optional captured call frame (the fifth constructor argument in the
    source; the fourth, a primitive-callable slot, is always nullptr in the
    code under src/ and is omitted). -/
inductive ClosureV where
  | mk : EnvV → Data → List String → Option FrameV → ClosureV

/-- Call frame, mirroring CallFrame.hpp: return expression, environment,
    value rib, and pointer to the next frame (none = nullptr). -/
inductive FrameV where
  | mk : Data → EnvV → List Data → Option FrameV → FrameV

/-- One binding of an environment frame: a symbol name mapped to a datum. -/
inductive EnvBinding where
  | mk : String → Data → EnvBinding

/-- Modelled from the spec: the Environment of base/Environment.hpp is not
    under src/. Section 4.3: a frame holding a symbol-to-datum mapping plus a
    link to a parent frame (none for the global frame). -/
inductive EnvV where
  | mk : List EnvBinding → Option EnvV → EnvV

end

namespace FrameV

/-- Return-expression field of a call frame (CallFrame::get_next_expression). -/
def ret : FrameV → Data
  | .mk r _ _ _ => r

/-- Environment field of a call frame (CallFrame::get_environment_pointer). -/
def env : FrameV → EnvV
  | .mk _ e _ _ => e

/-- Value-rib field of a call frame (CallFrame::get_value_rib). -/
def rib : FrameV → List Data
  | .mk _ _ r _ => r

/-- Next-frame field of a call frame (CallFrame::get_next_frame). -/
def next : FrameV → Option FrameV
  | .mk _ _ _ n => n

end FrameV

/-- Errors thrown by the C++ code as exceptions during one VM step. -/
inductive VMErr where
  | typeError
  | unboundVariable (name : String)
  | nullDeref
deriving Repr, DecidableEq

/-- The get of DataPair on a datum: returns car and cdr when the datum is a
    pair, otherwise the source throws (TypeException). -/
def asPair : Data → Except VMErr (Data × Data)
  | .Pair a d => .ok (a, d)
  | _ => .error .typeError

/-- The get of Symbol on a datum: the symbol name when the datum is a
    symbol, otherwise the source throws (TypeException). -/
def asSymbol : Data → Except VMErr String
  | .Symbol s => .ok s
  | _ => .error .typeError

/-- Modelled from the spec: Environment::get_value (section 4.3) is not under
    src/: lookup walks up the parent chain and fails when unbound. -/
def envGet : EnvV → String → Except VMErr Data
  | .mk bs parent, name =>
    match bs.find? (fun b => match b with | .mk n _ => n == name) with
    | some (.mk _ v) => .ok v
    | none =>
      match parent with
      | some p => envGet p name
      | none => .error (.unboundVariable name)

/-- Modelled from the spec: Environment::set_value (section 4.3) is not under
    src/: walk up until the binding is found and mutate it in place, failing
    if unbound. Heap aliasing of environments is not modelled; no claim
    exercises it. -/
def envSet : EnvV → String → Data → Except VMErr EnvV
  | .mk bs parent, name, v =>
    if bs.any (fun b => match b with | .mk n _ => n == name) then
      .ok (.mk (bs.map (fun b => match b with
        | .mk n old => if n == name then .mk n v else .mk n old)) parent)
    else
      match parent with
      | some p => (envSet p name v).map (fun p2 => .mk bs (some p2))
      | none => .error (.unboundVariable name)

/-- Modelled from the spec: core::is_null_list of core/lists.hpp is not under
    src/; it tests for the distinguished Null datum (section 4.5). -/
def is_null_list : Data → Bool
  | .Null => true
  | _ => false

/-- The vars-collection loop of the close instruction
    (HeapVirtualMachine.cpp lines 58-63): walk the variable list, reading
    each car as a Symbol, until core::is_null_list holds. A non-symbol
    element or a non-pair non-null tail throws. -/
def collectVars : Data → Except VMErr (List String)
  | .Null => .ok []
  | .Pair a d => do
      let s ← asSymbol a
      let rest ← collectVars d
      .ok (s :: rest)
  | _ => .error .typeError

/-- Modelled from the spec: core::list of core/lists.hpp is not under src/;
    it builds a proper list from its arguments (section 4.5). -/
def coreList : List Data → Data
  | [] => .Null
  | a :: rest => .Pair a (coreList rest)

/-- The VM register file (HeapVirtualMachine.hpp): accumulator, expression,
    environment, value rib, and top call frame (none = nullptr). The rib is
    a sequence of datums as used by HeapVirtualMachine.cpp. -/
structure VMState where
  acc : Data
  exp : Data
  env : EnvV
  rib : List Data
  frame : Option FrameV

/-- The test instruction's falseness check (HeapVirtualMachine.cpp lines
    94-95): the accumulator's type is SYMBOL and the symbol equals "#f". -/
def isTestFalse : Data → Bool
  | .Symbol s => s == "#f"
  | _ => false

/-- HeapVirtualMachine::evaluate_assembly_instruction. The source is a
    sequence of independent if-statements all comparing the head symbol of
    the expression register read before any register is written; the opcode
    strings are pairwise distinct, so at most one branch runs and a single
    dispatch is equivalent. A head symbol matching no branch (including
    "apply" and "nuate", which have no branch in the source) falls through
    and the procedure returns with every register unchanged. -/
def evaluate_assembly_instruction (s : VMState) : Except VMErr VMState := do
  let (instrD, operands) ← asPair s.exp
  let instruction ← asSymbol instrD
  -- (halt)
  if instruction = "halt" then
    .ok s
  -- (refer var x)
  else if instruction = "refer" then do
    let (varD, cdr1) ← asPair operands
    let var ← asSymbol varD
    let v ← envGet s.env var
    let (nextExp, _) ← asPair cdr1
    .ok { s with acc := v, exp := nextExp }
  -- (constant obj x)
  else if instruction = "constant" then do
    let (obj, cdr1) ← asPair operands
    let (nextExp, _) ← asPair cdr1
    .ok { s with acc := obj, exp := nextExp }
  -- (close vars body x)
  else if instruction = "close" then do
    let (varsList, cdr1) ← asPair operands
    let vars ← collectVars varsList
    let (body, cdr2) ← asPair cdr1
    let (nextExp, _) ← asPair cdr2
    .ok { s with acc := .Closure (.mk s.env body vars none), exp := nextExp }
  -- (test then else)
  else if instruction = "test" then do
    let (thenExp, cdr1) ← asPair operands
    let (elseExp, _) ← asPair cdr1
    if isTestFalse s.acc then
      .ok { s with exp := elseExp }
    else
      .ok { s with exp := thenExp }
  -- (assign var x)
  else if instruction = "assign" then do
    let (varD, cdr1) ← asPair operands
    let var ← asSymbol varD
    let (nextExp, _) ← asPair cdr1
    let env2 ← envSet s.env var s.acc
    .ok { s with env := env2, exp := nextExp }
  -- (conti x)
  else if instruction = "conti" then do
    match s.frame with
    | none => .error .nullDeref -- source dereferences the null frame pointer
    | some f =>
      let funcBody := coreList [.Symbol "nuate", .CallFrameData f,
                                .Symbol "kont_v000"]
      let continuation : Data :=
        .Closure (.mk (.mk [] none) funcBody ["kont_v000"] s.frame)
      let (nextExp, _) ← asPair operands
      .ok { s with acc := continuation, exp := nextExp }
  -- (frame x ret): x is the first operand, ret the second, as in the source
  else if instruction = "frame" then do
    let (x, cdr1) ← asPair operands
    let (ret, _) ← asPair cdr1
    .ok { s with frame := some (.mk ret s.env s.rib s.frame),
                 exp := x, rib := [] }
  -- (argument x)
  else if instruction = "argument" then do
    let (x, _) ← asPair operands
    .ok { s with rib := s.rib ++ [s.acc], exp := x }
  -- (return)
  else if instruction = "return" then do
    match s.frame with
    | none => .error .nullDeref -- source dereferences the null frame pointer
    | some f =>
      .ok { s with exp := f.ret, rib := f.rib, env := f.env,
                   frame := f.next }
  else
    -- no if-branch matches: the procedure body ends, registers unchanged
    .ok s

/- ===================== Parser (parser_definitions.cpp) ===================== -/

namespace parser

/-- The result record handed from the lexer to the parser. The lexer module
    behind the parser (lexer/rules) is not under src/; the parser code only
    reads the fields modelled here: whether the result is a token
    (LexResult::is_token), its token type string, and its lexeme. -/
structure LexResult where
  result_type : String
  token_type : String
  str : String
deriving Repr, DecidableEq

/-- LexResult::is_token: the result is a token rather than an error or
    incomplete result. -/
def LexResult.is_token (r : LexResult) : Bool := r.result_type == "token"

/-- Modelled from the spec: the result scheme_lexer produces on an exhausted
    character source is a non-token result (section 4.1 / 7). Its exact
    fields never matter to the claims. -/
def streamEnd : LexResult := ⟨"incomplete", "", ""⟩

/-- Modelled from the spec: lexer::rules::scheme_lexer of the lexer module is
    not under src/; it is abstracted as popping the next result from a
    pre-computed stream of lex results. -/
def scheme_lexer : List LexResult → LexResult × List LexResult
  | [] => (streamEnd, [])
  | t :: rest => (t, rest)

/-- ParserInput: the token double-ended queue plus the underlying lexer
    state (abstracted as the stream of results it will produce). -/
structure ParserInput where
  tokens : List LexResult
  lex : List LexResult
deriving Repr, DecidableEq

/-- ParserInput::get: pop the front of the token queue, or run the lexer
    when the queue is empty. -/
def ParserInput.get : ParserInput → LexResult × ParserInput
  | ⟨[], lx⟩ =>
    let (t, lx2) := scheme_lexer lx
    (t, ⟨[], lx2⟩)
  | ⟨t :: ts, lx⟩ => (t, ⟨ts, lx⟩)

/-- ParserInput::peek: return the front of the token queue; when the queue
    is empty, run the lexer, and enqueue the result only when it is a
    token (a non-token result is returned without being cached). -/
def ParserInput.peek : ParserInput → LexResult × ParserInput
  | ⟨[], lx⟩ =>
    let (t, lx2) := scheme_lexer lx
    if t.is_token then (t, ⟨[t], lx2⟩) else (t, ⟨[], lx2⟩)
  | ⟨t :: ts, lx⟩ => (t, ⟨t :: ts, lx⟩)

/-- ParserInput::unget: push a lex result back onto the front of the
    token queue. -/
def ParserInput.unget (s : ParserInput) (t : LexResult) : ParserInput :=
  ⟨t :: s.tokens, s.lex⟩

/-- ParserResult: a tag string, the produced datum (when any), and the
    associated lex result. -/
structure ParserResult where
  type : String
  it : Option Data
  lex_result : LexResult

/-- The default-constructed lex result of the two-argument ParserResult
    constructor: Error("", LexInfo(), "ParserResult-good"). -/
def goodLex : LexResult := ⟨"error", "", "ParserResult-good"⟩

/-- ParserResult::is_complete. -/
def ParserResult.is_complete (r : ParserResult) : Bool := r.type == "complete"

/-- The Valid result constructor. -/
def Valid (r : LexResult) : ParserResult := ⟨"valid", none, r⟩

/-- The Complete result constructor. -/
def Complete (n : Data) : ParserResult := ⟨"complete", some n, goodLex⟩

/-- The LexerError result constructor. -/
def LexerError (r : LexResult) : ParserResult := ⟨"lexer-error", none, r⟩

/-- The ParserError result constructor: carries the message as a String
    datum in the it field. -/
def ParserError (r : LexResult) (str : String) : ParserResult :=
  ⟨"parser-error", some (Data.String str), r⟩

/-- The Incomplete result constructor. -/
def Incomplete (r : LexResult) : ParserResult := ⟨"incomplete", none, r⟩

/-- parse_simple (parser_definitions.cpp lines 91-108): a string,
    identifier, boolean-true or boolean-false token at the head of the
    stream is consumed and yields the corresponding datum; anything else
    yields a ParserError built from another peek. Number and character
    tokens have no branch in the source. -/
def parse_simple (in0 : ParserInput) : ParserResult × ParserInput :=
  let (next, in1) := in0.peek
  if next.token_type == "string" then
    let (_, in2) := in1.get
    (Complete (Data.String next.str), in2)
  else if next.token_type == "identifier" then
    let (_, in2) := in1.get
    (Complete (Data.Symbol next.str), in2)
  else if next.token_type == "boolean-true" then
    let (_, in2) := in1.get
    (Complete (Data.Boolean true), in2)
  else if next.token_type == "boolean-false" then
    let (_, in2) := in1.get
    (Complete (Data.Boolean false), in2)
  else
    let (p, in2) := in1.peek
    (ParserError p "could not match to simple datum", in2)

/-- Exceptions escaping a parse call: a C++ TypeException thrown by the
    core list operations, or exhaustion of the recursion fuel of the
    embedding (the source has no fuel; fuel exhaustion stands for a
    computation that has not finished within the given bound). -/
inductive ParseExn where
  | outOfFuel
  | typeError
deriving Repr, DecidableEq

end parser

/-- Modelled from the spec: core::append of core/lists.hpp is not under
    src/. Section 4.5: on an empty first argument it returns the second
    unchanged, and car/cdr on a non-pair fail with TypeError; recursion on
    the first argument's pairs. Spec scenario 2 (the improper list
    quotation) requires that a non-list second argument become the improper
    tail, which this recursion produces. -/
def coreAppend : Data → Data → Except VMErr Data
  | .Null, b => .ok b
  | .Pair a d, b => (coreAppend d b).map (Data.Pair a)
  | _, _ => .error .typeError

/-- A datum is a proper list: a chain of pairs ending in Null (section 3). -/
def isProperList : Data → Bool
  | .Null => true
  | .Pair _ d => isProperList d
  | _ => false

namespace parser

mutual

/-- parse_datum (parser_definitions.cpp lines 150-187). The leading
    while-loop draining comment tokens is modelled by the self-recursive
    first branch; the quote handling and the simple/list dispatch that the
    source runs after the comment and datum-comment prefixes are in
    parse_quote_or_other. Each peek of the source is performed separately,
    as consecutive peeks are only guaranteed to agree on token results. -/
def parse_datum : Nat → ParserInput → Except ParseExn (ParserResult × ParserInput)
  | 0, _ => .error .outOfFuel
  | fuel+1, in0 =>
    let (pc, in1) := in0.peek
    if pc.token_type == "comment" then
      let (_, in2) := in1.get
      parse_datum fuel in2
    else
      let (pdc, in2) := in1.peek
      if pdc.token_type == "datum-comment" then do
        let (_, in3) := in2.get
        let (pr, in4) ← parse_datum fuel in3
        if pr.is_complete then
          parse_quote_or_other fuel in4
        else
          .ok (pr, in4)
      else
        parse_quote_or_other fuel in2

/-- The part of parse_datum after the comment prefixes (lines 163-187):
    the quote branch with its unget on failure, then parse_simple, then
    the paren-left dispatch to parse_list, else a ParserError. -/
def parse_quote_or_other : Nat → ParserInput → Except ParseExn (ParserResult × ParserInput)
  | 0, _ => .error .outOfFuel
  | fuel+1, in0 =>
    let (pq, in1) := in0.peek
    if pq.token_type == "quote" then do
      let (saved, in2) := in1.get
      let (pr, in3) ← parse_datum fuel in2
      if pr.is_complete then
        .ok (Complete (coreList [Data.Symbol "quote", pr.it.getD Data.Null]), in3)
      else
        .ok (pr, in3.unget saved)
    else
      let (sd, in2) := parse_simple in1
      if sd.is_complete then
        .ok (sd, in2)
      else
        let (next, in3) := in2.peek
        if next.token_type == "paren-left" then
          parse_list fuel in3
        else
          .ok (ParserError next "could not parse non-simple datum", in3)

/-- parse_list (parser_definitions.cpp lines 111-147): the empty
    accumulated list and the optional consumption of the opening
    parenthesis, then the datum-accumulating loop. -/
def parse_list : Nat → ParserInput → Except ParseExn (ParserResult × ParserInput)
  | 0, _ => .error .outOfFuel
  | fuel+1, in0 =>
    let (p0, in1) := in0.peek
    let in2 := if p0.token_type == "paren-left" then (in1.get).2 else in1
    parse_list_loop fuel Data.Null in2

/-- The while-loop of parse_list and the code after it. Each iteration:
    when the next token is not a closing parenthesis, parse a datum;
    append it to the accumulated list when complete; otherwise on a dot
    token parse the improper tail and append it; otherwise propagate the
    sub-result. On a closing parenthesis, consume it and return the
    accumulated list. A TypeException thrown by core::append (reached when
    the accumulated list has already received a non-list improper tail)
    escapes the parse. -/
def parse_list_loop : Nat → Data → ParserInput → Except ParseExn (ParserResult × ParserInput)
  | 0, _, _ => .error .outOfFuel
  | fuel+1, data_list, in0 =>
    let (p, in1) := in0.peek
    if p.token_type == "paren-right" then
      let (p2, in2) := in1.peek
      if p2.token_type == "paren-right" then
        let (_, in3) := in2.get
        .ok (Complete data_list, in3)
      else
        let (p3, in3) := in2.peek
        .ok (ParserError p3 "could not match to closing parens for list", in3)
    else do
      let (dres, in2) ← parse_datum fuel in1
      if dres.is_complete then do
        let appended ← match coreAppend data_list (coreList [dres.it.getD Data.Null]) with
          | .ok d => Except.ok d
          | .error _ => Except.error ParseExn.typeError
        parse_list_loop fuel appended in2
      else
        let (pd, in3) := in2.peek
        if pd.token_type == "dot" then do
          let (_, in4) := in3.get
          let (dres2, in5) ← parse_datum fuel in4
          if dres2.is_complete then do
            let appended ← match coreAppend data_list (dres2.it.getD Data.Null) with
              | .ok d => Except.ok d
              | .error _ => Except.error ParseExn.typeError
            parse_list_loop fuel appended in5
          else
            .ok (ParserError dres2.lex_result
                  "could not match to last datum for improper list", in5)
        else
          .ok (dres, in3)

end

end parser

/- ===================== Tokenizer (Tokenizer.hpp) ===================== -/

namespace tokenizer

/-- Token::Type of lexer/Token.hpp, as used by Tokenizer.hpp. -/
inductive TokenType where
  | PAREN_START | PAREN_END | VECTOR_START | BYTEVECTOR_START
  | QUOTE | BACKTICK | COMMA | COMMA_ATSIGN | PERIOD
  | IDENTIFIER | BOOLEAN_TRUE | BOOLEAN_FALSE | NUMBER | STRING | CHARACTER
  | DIRECTIVE | DATUM_COMMENT | END_OF_FILE | INVALID
deriving Repr, DecidableEq

/-- A token: its type and its lexeme string (the one-argument Token
    constructor leaves the string empty). -/
structure Token where
  type : TokenType
  str : String
deriving Repr, DecidableEq

/-- Exceptions thrown by Tokenizer.hpp: TokenizerException with its code,
    the bare string throw of rule_hash line 496, the bare int throw of
    parse_token line 833, and the std::invalid_argument that std::stoi
    raises on an empty buffer in handle_inline_hex_escape. -/
inductive TokErr where
  | tokEx (code : Nat)
  | strEx
  | intEx
  | stdEx
deriving Repr, DecidableEq

/-- The character an std::istream comparison sees at end of input after the
    int EOF (-1) is truncated to a char: 0xFF. The input is modelled as the
    list of remaining characters; peeking an empty list gives this
    character, mirroring how the source feeds in.peek() to char-taking
    predicates without checking for EOF (an actual 0xFF byte in the input
    would be indistinguishable; no claim involves one). -/
def eofChar : Char := Char.ofNat 255

/-- in.peek() as a char: the next character, or eofChar at end of input. -/
def peekChar : List Char → Char
  | [] => eofChar
  | c :: _ => c

/-- The apostrophe character (ASCII 39). -/
def quoteChar : Char := Char.ofNat 39

/-- The backquote character (ASCII 96). -/
def backtickChar : Char := Char.ofNat 96

/-- std::isspace in the C locale (false on EOF/0xFF). -/
def isSpaceC (c : Char) : Bool :=
  c == ' ' || c == '\t' || c == '\n' || c == '\r' ||
  c == '\x0b' || c == '\x0c'

/-- std::isalpha in the C locale (false on EOF/0xFF). -/
def isAlphaC (c : Char) : Bool :=
  ('a' ≤ c && c ≤ 'z') || ('A' ≤ c && c ≤ 'Z')

/-- std::isdigit in the C locale (false on EOF/0xFF). -/
def isDigitC (c : Char) : Bool := '0' ≤ c && c ≤ '9'

/-- Tokenizer::is_delimiter. -/
def is_delimiter (c : Char) : Bool :=
  isSpaceC c || c == '|' || c == '(' || c == ')' || c == '"' || c == ';'

/-- Tokenizer::is_special_initial, with the source's character set copied
    as written (three occurrences of bang, two of greater-than, and no
    less-than or tilde). -/
def is_special_initial (c : Char) : Bool :=
  c == '!' || c == '$' || c == '%' || c == '&' || c == '*' || c == '/' ||
  c == '!' || c == ':' || c == '>' || c == '=' || c == '>' || c == '?' ||
  c == '^' || c == '_' || c == '!'

/-- Tokenizer::is_explicit_sign. -/
def is_explicit_sign (c : Char) : Bool := c == '+' || c == '-'

/-- Tokenizer::is_letter. -/
def is_letter (c : Char) : Bool := isAlphaC c

/-- Tokenizer::is_initial. -/
def is_initial (c : Char) : Bool := is_letter c || is_special_initial c

/-- Tokenizer::is_digit. -/
def is_digit (c : Char) : Bool := isDigitC c

/-- Tokenizer::is_special_subsequent. -/
def is_special_subsequent (c : Char) : Bool :=
  c == '.' || c == '@' || is_explicit_sign c

/-- Tokenizer::is_subsequent. -/
def is_subsequent (c : Char) : Bool :=
  is_initial c || is_digit c || is_special_subsequent c

/-- Tokenizer::is_sign_subsequent. -/
def is_sign_subsequent (c : Char) : Bool :=
  is_initial c || is_explicit_sign c || c == '@'

/-- Tokenizer::is_dot_subsequent. -/
def is_dot_subsequent (c : Char) : Bool :=
  is_sign_subsequent c || c == '.'

/-- Tokenizer::is_hex_digit: a decimal digit or a lowercase letter a-f. -/
def is_hex_digit (c : Char) : Bool :=
  isDigitC c || c == 'a' || c == 'b' || c == 'c' || c == 'd' ||
  c == 'e' || c == 'f'

/-- Value of one hex digit as accepted by is_hex_digit. -/
def hexDigitVal (c : Char) : Nat :=
  if isDigitC c then c.toNat - '0'.toNat else c.toNat - 'a'.toNat + 10

/-- std::stoi with base 16 on a buffer of hex digits (overflow, which would
    throw in C++ on absurdly long buffers, is not modelled; no claim
    reaches it). -/
def hexVal (s : String) : Nat :=
  s.toList.foldl (fun acc c => acc * 16 + hexDigitVal c) 0

/-- A digit-reading while loop: consume digits into the buffer, stop at the
    first non-digit or end of input. -/
def takeDigits : List Char → String → String × List Char
  | [], buf => (buf, [])
  | c :: rest, buf =>
    if isDigitC c then takeDigits rest (buf.push c) else (buf, c :: rest)

/-- An alpha-reading while loop, as in the boolean branches of rule_hash. -/
def readAlpha : List Char → String → String × List Char
  | [], buf => (buf, [])
  | c :: rest, buf =>
    if isAlphaC c then readAlpha rest (buf.push c) else (buf, c :: rest)

/-- A subsequent-reading while loop, as in the identifier branches of
    parse_token. -/
def takeSubsequent : List Char → String → String × List Char
  | [], buf => (buf, [])
  | c :: rest, buf =>
    if is_subsequent c then takeSubsequent rest (buf.push c) else (buf, c :: rest)

/-- A hex-digit-reading while loop. -/
def takeHex : List Char → String → String × List Char
  | [], buf => (buf, [])
  | c :: rest, buf =>
    if is_hex_digit c then takeHex rest (buf.push c) else (buf, c :: rest)

/-- The buffer-reading loop of the named-escape branches:
    while (!is_delimiter(in.peek()) && in.peek() != EOF) buffer += in.get(). -/
def readUntilDelimOrEof : List Char → String → String × List Char
  | [], buf => (buf, [])
  | c :: rest, buf =>
    if is_delimiter c then (buf, c :: rest)
    else readUntilDelimOrEof rest (buf.push c)

/-- The whitespace-skipping loop of the line-continuation escape. -/
def skipSpaces : List Char → List Char
  | [] => []
  | c :: rest => if isSpaceC c then skipSpaces rest else c :: rest

/-- Tokenizer::parse_hex_scalar_value_character, called only when a hex
    digit is at the head: read the hex digits, convert, and truncate
    through static_cast of char (modulo 256). -/
def parse_hex_scalar_value_character (input : List Char) : Token × List Char :=
  let (buffer, rest) := takeHex input ""
  (⟨.CHARACTER, String.singleton (Char.ofNat (hexVal buffer % 256))⟩, rest)

/-- Tokenizer::parse_string_element (Tokenizer.hpp lines 175-295). At end
    of input, the final else appends the truncated EOF character and
    consumes nothing, which is what makes the enclosing string loop
    diverge. -/
def parse_string_element (input : List Char) (str : String) :
    Except TokErr (List Char × String) :=
  if peekChar input == '\\' then
    let i1 := input.tail
    if isAlphaC (peekChar i1) then
      if peekChar i1 == 'a' then .ok (i1.tail, str.push '\x07')
      else if peekChar i1 == 'b' then .ok (i1.tail, str.push '\x08')
      else if peekChar i1 == 't' then .ok (i1.tail, str.push '\t')
      else if peekChar i1 == 'n' then .ok (i1.tail, str.push '\n')
      else if peekChar i1 == 'r' then .ok (i1.tail, str.push '\r')
      else if peekChar i1 == 'x' then
        let i2 := i1.tail
        if is_hex_digit (peekChar i2) then
          -- parse_hex_scalar_value_character succeeds here (it would throw
          -- rather than return false), so the str += "x" fallback is dead
          let (result, i3) := parse_hex_scalar_value_character i2
          .ok (i3, str ++ result.str)
        else .ok (i2, str.push 'x')
      else
        let (buffer, i2) := readUntilDelimOrEof i1 ""
        if isSpaceC (peekChar i2) && buffer.length == 0 then
          .ok (skipSpaces i2, str)
        else if buffer == "alarm" then .ok (i2, str.push '\x07')
        else if buffer == "backspace" then .ok (i2, str.push '\x08')
        else if buffer == "delete" then .ok (i2, str.push '\x7f')
        else if buffer == "escape" then .ok (i2, str.push '\x1b')
        else if buffer == "newline" then .ok (i2, str.push '\n')
        else if buffer == "null" then .ok (i2, str.push '\x00')
        else if buffer == "return" then .ok (i2, str.push '\r')
        else if buffer == "space" then .ok (i2, str.push ' ')
        else if buffer == "tab" then .ok (i2, str.push '\t')
        else .error (.tokEx 20002)
    else if peekChar i1 == '"' then .ok (i1.tail, str.push '"')
    else .ok (i1.tail, str.push (peekChar i1))
  else .ok (input.tail, str.push (peekChar input))

/-- The while loop of Tokenizer::parse_string: read string elements until
    an unescaped closing double quote, then consume it. The source loop
    has no end-of-input check; fuel exhaustion (none) models an unfinished
    computation. -/
def parse_string_loop : Nat → List Char → String →
    Option (Except TokErr (Token × List Char))
  | 0, _, _ => none
  | fuel+1, input, buffer =>
    if peekChar input == '"' then
      some (.ok (⟨.STRING, buffer⟩, input.tail))
    else
      match parse_string_element input buffer with
      | .ok (i2, b2) => parse_string_loop fuel i2 b2
      | .error e => some (.error e)

/-- Tokenizer::parse_string (Tokenizer.hpp lines 304-318). -/
def parse_string (fuel : Nat) (input : List Char) :
    Option (Except TokErr (Token × List Char)) :=
  if peekChar input == '"' then
    parse_string_loop fuel input.tail ""
  else some (.error (.tokEx 20003))

/-- Tokenizer::parse_line_comment: read until a newline is consumed. The
    source loop has no end-of-input check. -/
def parse_line_comment : Nat → List Char → Option (List Char)
  | 0, _ => none
  | fuel+1, input =>
    if peekChar input == '\n' then some input.tail
    else parse_line_comment fuel input.tail

/-- Tokenizer::parse_paren_start. -/
def parse_paren_start (input : List Char) : Except TokErr (Token × List Char) :=
  if peekChar input == '(' then .ok (⟨.PAREN_START, "("⟩, input.tail)
  else .error (.tokEx 20000)

/-- Tokenizer::parse_paren_end. -/
def parse_paren_end (input : List Char) : Except TokErr (Token × List Char) :=
  if peekChar input == ')' then .ok (⟨.PAREN_END, ")"⟩, input.tail)
  else .error (.tokEx 20001)

/-- Tokenizer::parse_number (Tokenizer.hpp lines 603-657): optional sign,
    digits, optional dot and fraction digits, optional slash and
    denominator digits; the number flag records whether any digit run (or
    the dot branch) was seen. -/
def parse_number (input0 : List Char) (buffer0 : String) : Token × List Char :=
  let (buffer1, input1) :=
    if is_explicit_sign (peekChar input0) then
      (buffer0.push (peekChar input0), input0.tail)
    else (buffer0, input0)
  let number1 := isDigitC (peekChar input1)
  let (buffer2, input2) := takeDigits input1 buffer1
  let (buffer3, input3, number3) :=
    if peekChar input2 == '.' then
      let (b, i) := takeDigits input2.tail (buffer2.push '.')
      (b, i, true)
    else (buffer2, input2, number1)
  let (buffer4, input4, number4) :=
    if peekChar input3 == '/' then
      let hasD := isDigitC (peekChar input3.tail)
      let (b, i) := takeDigits input3.tail (buffer3.push '/')
      (b, i, number3 || hasD)
    else (buffer3, input3, number3)
  if number4 then (⟨.NUMBER, buffer4⟩, input4)
  else (⟨.INVALID, ""⟩, input4)

/-- Tokenizer::handle_inline_hex_escape: read hex digits; a terminating
    semicolon (left unconsumed, as in the source) converts them; an empty
    buffer would make std::stoi throw std::invalid_argument; no semicolon
    throws TokenizerException 20018. -/
def handle_inline_hex_escape (input : List Char) (interm : String) :
    Except TokErr (List Char × String) :=
  let (buffer, i2) := takeHex input ""
  if peekChar i2 == ';' then
    if buffer.isEmpty then .error .stdEx
    else .ok (i2, interm.push (Char.ofNat (hexVal buffer % 256)))
  else .error (.tokEx 20018)

/-- Tokenizer::handle_symbol_element: false on the terminating vertical
    bar, true after consuming an escape or one plain character (at end of
    input the source appends the truncated EOF char and loops). -/
def handle_symbol_element (input : List Char) (interm : String) :
    Except TokErr (Bool × List Char × String) :=
  if peekChar input == '|' then .ok (false, input, interm)
  else if peekChar input == '\\' then
    let i1 := input.tail
    if peekChar i1 == 'x' then
      (handle_inline_hex_escape i1.tail interm).map (fun (i, s) => (true, i, s))
    else if peekChar i1 == 'a' then .ok (true, i1.tail, interm.push '\x07')
    else if peekChar i1 == 'b' then .ok (true, i1.tail, interm.push '\x08')
    else if peekChar i1 == 't' then .ok (true, i1.tail, interm.push '\t')
    else if peekChar i1 == 'n' then .ok (true, i1.tail, interm.push '\n')
    else if peekChar i1 == 'r' then .ok (true, i1.tail, interm.push '\r')
    else if peekChar i1 == '|' then .ok (true, i1.tail, interm.push '|')
    else .error (.tokEx 20017)
  else .ok (true, input.tail, interm.push (peekChar input))

/-- The while (handle_symbol_element(in, buffer)); loop of the vertical-bar
    identifier branch. -/
def symbol_element_loop : Nat → List Char → String →
    Option (Except TokErr (String × List Char))
  | 0, _, _ => none
  | fuel+1, input, interm =>
    match handle_symbol_element input interm with
    | .error e => some (.error e)
    | .ok (false, i2, s2) => some (.ok (s2, i2))
    | .ok (true, i2, s2) => symbol_element_loop fuel i2 s2

/-- The depth-counting nested block comment loop of rule_hash (entered with
    depth 1 and the opening vertical bar still unconsumed, as in the
    source). The source loop has no end-of-input check. -/
def block_comment_loop : Nat → Nat → List Char → Option (List Char)
  | 0, _, _ => none
  | _+1, 0, input => some input
  | fuel+1, depth+1, input =>
    if peekChar input == '|' then
      let i2 := input.tail
      if peekChar i2 == '#' then block_comment_loop fuel depth i2.tail
      else block_comment_loop fuel (depth+1) i2
    else if peekChar input == '#' then
      let i2 := input.tail
      if peekChar i2 == '|' then block_comment_loop fuel (depth+2) i2.tail
      else block_comment_loop fuel (depth+1) i2
    else block_comment_loop fuel (depth+1) input.tail

/-- The directive-name loop: while (!is_delimiter(in.peek())) buffer +=
    in.get(); — with no end-of-input check, so at end of input it appends
    the truncated EOF char forever. -/
def read_until_delim : Nat → List Char → String → Option (String × List Char)
  | 0, _, _ => none
  | fuel+1, input, buf =>
    if is_delimiter (peekChar input) then some (buf, input)
    else read_until_delim fuel input.tail (buf.push (peekChar input))

/-- Tokenizer::rule_hash (Tokenizer.hpp lines 393-601). Returns some token
    (return true with the result set), no token (return false: the caller
    keeps scanning), or a thrown exception; none is fuel exhaustion of one
    of the source's unbounded loops. The single-character escape branch
    sets the result but falls through to the trailing return false, as in
    the source; so does a malformed #u8 prefix whose next character is not
    an opening parenthesis, and a character branch whose first character is
    not alphabetic. -/
def rule_hash (fuel : Nat) (input : List Char) :
    Option (Except TokErr (Option Token × List Char)) :=
  if peekChar input == '#' then
    let i1 := input.tail
    if peekChar i1 == '(' then
      some (.ok (some ⟨.VECTOR_START, "#("⟩, i1.tail))
    else if peekChar i1 == 'u' then
      let i2 := i1.tail
      if peekChar i2 == '8' then
        let i3 := i2.tail
        if peekChar i3 == '(' then
          some (.ok (some ⟨.BYTEVECTOR_START, "#u8("⟩, i3.tail))
        else
          some (.ok (none, i3))
      else
        some (.error (.tokEx 20007))
    else if peekChar i1 == '\\' then
      let i2 := i1.tail
      if isAlphaC (peekChar i2) then
        if peekChar i2 == 'x' then
          let i3 := i2.tail
          if is_hex_digit (peekChar i3) then
            let (result, i4) := parse_hex_scalar_value_character i3
            some (.ok (some result, i4))
          else
            some (.ok (some ⟨.CHARACTER, "x"⟩, i3))
        else
          let (buffer, i3) := readUntilDelimOrEof i2 ""
          if buffer.length == 1 then
            some (.ok (none, i3))
          else if buffer == "alarm" then some (.ok (some ⟨.CHARACTER, "\x07"⟩, i3))
          else if buffer == "backspace" then some (.ok (some ⟨.CHARACTER, "\x08"⟩, i3))
          else if buffer == "delete" then some (.ok (some ⟨.CHARACTER, "\x7f"⟩, i3))
          else if buffer == "escape" then some (.ok (some ⟨.CHARACTER, "\x1b"⟩, i3))
          else if buffer == "newline" then some (.ok (some ⟨.CHARACTER, "\n"⟩, i3))
          else if buffer == "null" then some (.ok (some ⟨.CHARACTER, "\x00"⟩, i3))
          else if buffer == "return" then some (.ok (some ⟨.CHARACTER, "\r"⟩, i3))
          else if buffer == "space" then some (.ok (some ⟨.CHARACTER, " "⟩, i3))
          else if buffer == "tab" then some (.ok (some ⟨.CHARACTER, "\t"⟩, i3))
          else some (.error .strEx)
      else
        some (.ok (none, i2))
    else if peekChar i1 == 't' then
      let (buffer, i2) := readAlpha i1 ""
      if buffer == "true" || buffer == "t" then
        some (.ok (some ⟨.BOOLEAN_TRUE, "#t"⟩, i2))
      else some (.error (.tokEx 20008))
    else if peekChar i1 == 'f' then
      let (buffer, i2) := readAlpha i1 ""
      if buffer == "false" || buffer == "f" then
        some (.ok (some ⟨.BOOLEAN_FALSE, "#f"⟩, i2))
      else some (.error (.tokEx 20009))
    else if peekChar i1 == '|' then
      match block_comment_loop fuel 1 i1 with
      | none => none
      | some rest => some (.ok (none, rest))
    else if peekChar i1 == ';' then
      some (.ok (some ⟨.DATUM_COMMENT, "#;"⟩, i1.tail))
    else if peekChar i1 == '!' then
      match read_until_delim fuel i1.tail "" with
      | none => none
      | some (buffer, rest) => some (.ok (some ⟨.DIRECTIVE, buffer⟩, rest))
    else some (.error (.tokEx 20011))
  else some (.error (.tokEx 20012))

/-- Tokenizer::parse_token (Tokenizer.hpp lines 659-835). One fuel unit per
    iteration of the while (!done) loop; none is an unfinished computation
    (the source's loops with no end-of-input check). The explicit-sign
    branch reproduces line 765, buffer = +in.get(), which replaces the
    buffer with the sign-subsequent character instead of appending it, and
    line 793, which shadows the buffer with a fresh empty string before
    parse_number. -/
def parse_token : Nat → List Char → Option (Except TokErr (Token × List Char))
  | 0, _ => none
  | fuel+1, input =>
    if peekChar input == quoteChar then
      some (.ok (⟨.QUOTE, "\x27"⟩, input.tail))
    else if peekChar input == backtickChar then
      some (.ok (⟨.BACKTICK, "\x60"⟩, input.tail))
    else if peekChar input == ',' then
      let i1 := input.tail
      if peekChar i1 == '@' then some (.ok (⟨.COMMA_ATSIGN, ",@"⟩, i1.tail))
      else some (.ok (⟨.COMMA, ","⟩, i1))
    else if peekChar input == '.' then
      some (.ok (⟨.PERIOD, "."⟩, input.tail))
    else if peekChar input == '(' then
      some (parse_paren_start input)
    else if peekChar input == ')' then
      some (parse_paren_end input)
    else if peekChar input == '"' then
      parse_string fuel input
    else if peekChar input == ';' then
      match parse_line_comment fuel input with
      | none => none
      | some rest => parse_token fuel rest
    else if input.isEmpty then
      some (.ok (⟨.END_OF_FILE, ""⟩, []))
    else if isSpaceC (peekChar input) then
      parse_token fuel input.tail
    else if peekChar input == '#' then
      match rule_hash fuel input with
      | none => none
      | some (.error e) => some (.error e)
      | some (.ok (some t, rest)) => some (.ok (t, rest))
      | some (.ok (none, rest)) => parse_token fuel rest
    else if is_initial (peekChar input) then
      let (buffer, i2) := takeSubsequent input.tail (String.singleton (peekChar input))
      some (.ok (⟨.IDENTIFIER, buffer⟩, i2))
    else if peekChar input == '|' then
      match symbol_element_loop fuel input.tail "" with
      | none => none
      | some (.error e) => some (.error e)
      | some (.ok (buffer, i2)) =>
        if peekChar i2 == '|' then some (.ok (⟨.IDENTIFIER, buffer⟩, i2.tail))
        else some (.error (.tokEx 20013))
    else if is_explicit_sign (peekChar input) then
      let buffer := String.singleton (peekChar input)
      let i1 := input.tail
      if is_sign_subsequent (peekChar i1) then
        -- line 765: buffer = +in.get(); (assignment, not +=): the leading
        -- sign is dropped from the lexeme
        let buffer2 := String.singleton (peekChar i1)
        let (buffer3, i2) := takeSubsequent i1.tail buffer2
        some (.ok (⟨.IDENTIFIER, buffer3⟩, i2))
      else if peekChar i1 == '.' then
        let buffer2 := buffer.push '.'
        let i2 := i1.tail
        if is_dot_subsequent (peekChar i2) then
          let (buffer3, i3) := takeSubsequent i2.tail (buffer2.push (peekChar i2))
          some (.ok (⟨.IDENTIFIER, buffer3⟩, i3))
        else if isDigitC (peekChar i2) then
          some (.ok (parse_number i2 buffer2))
        else some (.error (.tokEx 20014))
      else if isDigitC (peekChar i1) then
        -- line 793: a fresh empty buffer shadows the sign just read
        some (.ok (parse_number i1 ""))
      else
        some (.ok (⟨.IDENTIFIER, buffer⟩, i1))
    else if peekChar input == '.' then
      -- dead code: a period is already returned by the earlier branch
      let i1 := input.tail
      if is_dot_subsequent (peekChar i1) then
        let (buffer3, i2) := takeSubsequent i1.tail ((String.singleton '.').push (peekChar i1))
        some (.ok (⟨.IDENTIFIER, buffer3⟩, i2))
      else some (.error (.tokEx 20015))
    else if isDigitC (peekChar input) then
      some (.ok (parse_number input ""))
    else
      some (.error (.tokEx 20016))

end tokenizer

/- ===================== Helper lemmas ===================== -/

/-- Bind of a successful Except computation reduces to the continuation. -/
theorem exceptOkBind {ε α β : Type} (a : α) (f : α → Except ε β) :
    (Except.ok a : Except ε α) >>= f = f a := rfl

/-- Bind of a failed Except computation propagates the error. -/
theorem exceptErrBind {ε α β : Type} (e : ε) (f : α → Except ε β) :
    (Except.error e : Except ε α) >>= f = .error e := rfl

/-- Appending to a datum that is not a proper list fails with a type error:
    the recursion reaches a non-pair non-null tail, where car/cdr throw. -/
theorem coreAppend_not_proper :
    ∀ (a b : Data), isProperList a = false → coreAppend a b = .error .typeError
  | .Null, _, h => by simp [isProperList] at h
  | .Pair _ d, b, h => by
      have ih := coreAppend_not_proper d b (by simpa [isProperList] using h)
      simp [coreAppend, ih, Except.map]
  | .Symbol _, _, _ => rfl
  | .Number _, _, _ => rfl
  | .Boolean _, _, _ => rfl
  | .String _, _, _ => rfl
  | .Character _, _, _ => rfl
  | .Unspecified, _, _ => rfl
  | .Closure _, _, _ => rfl
  | .CallFrameData _, _, _ => rfl

/-- The string loop of Tokenizer::parse_string never terminates when no
    closing quote and no backslash remains in the input: at end of input
    every iteration appends the truncated EOF character and consumes
    nothing. -/
theorem parse_string_loop_unterminated :
    ∀ (fuel : Nat) (input : List Char) (buf : String),
      (∀ c ∈ input, ¬(c = '"' ∨ c = '\\')) →
      tokenizer.parse_string_loop fuel input buf = none := by
  intro fuel
  induction fuel with
  | zero => intro input buf _; rfl
  | succ fuel ih =>
    intro input buf h
    cases input with
    | nil =>
      show tokenizer.parse_string_loop (fuel+1) [] buf = none
      simp only [tokenizer.parse_string_loop, tokenizer.parse_string_element,
                 tokenizer.peekChar]
      norm_num [tokenizer.eofChar]
      exact ih [] _ (by simp)
    | cons c rest =>
      have hc := h c (List.mem_cons_self c rest)
      push_neg at hc
      show tokenizer.parse_string_loop (fuel+1) (c :: rest) buf = none
      simp only [tokenizer.parse_string_loop, tokenizer.parse_string_element,
                 tokenizer.peekChar]
      rw [if_neg (by simp [hc.1]), if_neg (by simp [hc.2])]
      exact ih rest _ (fun d hd => h d (List.mem_cons_of_mem c hd))

/- ===================== Claim theorems ===================== -/

/-- C1 (counterexample): with the accumulator holding the boolean false
    value, a test step selects the THEN branch, not the else branch the
    claim requires. -/
theorem C1_counterexample :
    evaluate_assembly_instruction
      ⟨Data.Boolean false,
       Data.Pair (Data.Symbol "test")
         (Data.Pair (Data.Symbol "T") (Data.Pair (Data.Symbol "E") Data.Null)),
       EnvV.mk [] none, [], none⟩
      = .ok ⟨Data.Boolean false, Data.Symbol "T", EnvV.mk [] none, [], none⟩
    ∧ Data.Symbol "T" ≠ Data.Symbol "E" :=
  ⟨rfl, by simp⟩

/-- C1 (amended): a test step sets the expression register to the else
    branch exactly when the accumulator holds the SYMBOL #f; every other
    accumulator value — including the boolean false, the empty list, the
    number 0 and the empty string — selects the then branch. -/
theorem C1_test_else_iff_symbol_false (acc t e r : Data) (env : EnvV)
    (rib : List Data) (fr : Option FrameV) :
    evaluate_assembly_instruction
      ⟨acc, Data.Pair (Data.Symbol "test") (Data.Pair t (Data.Pair e r)),
       env, rib, fr⟩
      = .ok ⟨acc, if isTestFalse acc then e else t, env, rib, fr⟩
    ∧ (∀ a : Data, isTestFalse a = true ↔ a = Data.Symbol "#f") := by
  constructor
  · have key : evaluate_assembly_instruction
        ⟨acc, Data.Pair (Data.Symbol "test") (Data.Pair t (Data.Pair e r)),
         env, rib, fr⟩
        = if isTestFalse acc then .ok ⟨acc, e, env, rib, fr⟩
          else .ok ⟨acc, t, env, rib, fr⟩ := rfl
    rw [key]
    by_cases h : isTestFalse acc <;> simp [h]
  · intro a
    cases a <;> simp [isTestFalse]

/-- C2: the VM has no branch for the apply instruction: a step on (apply)
    returns successfully with every register unchanged, both when the
    accumulator holds a non-closure (where the claim requires a
    NotApplicable failure) and when it holds a closure (where the claim
    requires the environment, expression and rib to change). -/
theorem C2_apply_silently_ignored :
    (evaluate_assembly_instruction
      ⟨Data.Number 5, Data.Pair (Data.Symbol "apply") Data.Null,
       EnvV.mk [] none, [Data.Number 1], none⟩
     = .ok ⟨Data.Number 5, Data.Pair (Data.Symbol "apply") Data.Null,
            EnvV.mk [] none, [Data.Number 1], none⟩)
    ∧ (evaluate_assembly_instruction
      ⟨Data.Closure (ClosureV.mk (EnvV.mk [] none) Data.Null ["x"] none),
       Data.Pair (Data.Symbol "apply") Data.Null,
       EnvV.mk [] none, [Data.Number 1], none⟩
     = .ok ⟨Data.Closure (ClosureV.mk (EnvV.mk [] none) Data.Null ["x"] none),
            Data.Pair (Data.Symbol "apply") Data.Null,
            EnvV.mk [] none, [Data.Number 1], none⟩) :=
  ⟨rfl, rfl⟩

/-- C3: a step on an instruction datum whose head symbol matches none of
    the branches of evaluate_assembly_instruction completes successfully
    with every register unchanged — there is no BadInstruction failure. -/
theorem C3_unknown_opcode_silent (acc : Data) (name : String) (rest : Data)
    (env : EnvV) (rib : List Data) (fr : Option FrameV)
    (hname : name ∉ ["halt", "refer", "constant", "close", "test", "assign",
                     "conti", "frame", "argument", "return"]) :
    evaluate_assembly_instruction
      ⟨acc, Data.Pair (Data.Symbol name) rest, env, rib, fr⟩
    = .ok ⟨acc, Data.Pair (Data.Symbol name) rest, env, rib, fr⟩ := by
  simp only [List.mem_cons, not_or] at hname
  obtain ⟨h1, h2, h3, h4, h5, h6, h7, h8, h9, h10, -⟩ := hname
  simp [evaluate_assembly_instruction, asPair, asSymbol, exceptOkBind,
        h1, h2, h3, h4, h5, h6, h7, h8, h9, h10]

/-- C3 (witness): a step on the unknown instruction (foo) completes
    silently. -/
theorem C3_witness :
    evaluate_assembly_instruction
      ⟨Data.Number 3, Data.Pair (Data.Symbol "foo") Data.Null,
       EnvV.mk [] none, [], none⟩
    = .ok ⟨Data.Number 3, Data.Pair (Data.Symbol "foo") Data.Null,
           EnvV.mk [] none, [], none⟩ :=
  C3_unknown_opcode_silent (Data.Number 3) "foo" Data.Null
    (EnvV.mk [] none) [] none (by decide)

/-- C4 (counterexample): on (frame A B) the step sets the expression
    register to the FIRST operand A and stores the SECOND operand B as the
    pushed frame's return expression — the claim predicts expression B and
    return expression A. -/
theorem C4_counterexample :
    evaluate_assembly_instruction
      ⟨Data.Unspecified,
       Data.Pair (Data.Symbol "frame")
         (Data.Pair (Data.Symbol "A") (Data.Pair (Data.Symbol "B") Data.Null)),
       EnvV.mk [] none, [Data.Number 7], none⟩
    = .ok ⟨Data.Unspecified, Data.Symbol "A", EnvV.mk [] none, [],
           some (FrameV.mk (Data.Symbol "B") (EnvV.mk [] none)
                   [Data.Number 7] none)⟩
    ∧ Data.Symbol "A" ≠ Data.Symbol "B" :=
  ⟨rfl, by simp⟩

/-- C4 (amended): the operands of frame are x then ret, as in the source
    comment (frame x ret): the step pushes the frame {second operand,
    current env, current rib, current frame}, resets the rib, and sets the
    expression register to the FIRST operand. -/
theorem C4_frame_operands (acc x ret r : Data) (env : EnvV)
    (rib : List Data) (fr : Option FrameV) :
    evaluate_assembly_instruction
      ⟨acc, Data.Pair (Data.Symbol "frame") (Data.Pair x (Data.Pair ret r)),
       env, rib, fr⟩
    = .ok ⟨acc, x, env, [], some (FrameV.mk ret env rib fr)⟩ := rfl

/-- C8: lexing an unterminated string diverges instead of failing with a
    lexer error: for every fuel bound, both parse_string and parse_token on
    the unterminated input produce neither a token nor a thrown exception,
    while the same input with a closing quote lexes to a STRING token. -/
theorem C8_unterminated_string_diverges :
    (∀ fuel : Nat,
      tokenizer.parse_string fuel [ '"', 'a', 'b', 'c' ] = none)
    ∧ (∀ fuel : Nat,
      tokenizer.parse_token fuel [ '"', 'a', 'b', 'c' ] = none)
    ∧ tokenizer.parse_string 10 [ '"', 'a', 'b', '"' ]
        = some (.ok (⟨.STRING, "ab"⟩, [])) := by
  have hstr : ∀ fuel : Nat,
      tokenizer.parse_string fuel [ '"', 'a', 'b', 'c' ] = none := by
    intro fuel
    show tokenizer.parse_string_loop fuel [ 'a', 'b', 'c' ] "" = none
    exact parse_string_loop_unterminated fuel _ _ (by decide)
  refine ⟨hstr, ?_, rfl⟩
  intro fuel
  cases fuel with
  | zero => rfl
  | succ f =>
    show tokenizer.parse_string f [ '"', 'a', 'b', 'c' ] = none
    exact hstr f

/-- C9: lexing "+a" produces an identifier token whose lexeme is "a": the
    leading sign is dropped (line 765 of Tokenizer.hpp assigns the
    sign-subsequent to the buffer instead of appending), contradicting the
    claim that the lexeme is exactly the consumed characters "+a"; "+ab"
    likewise lexes to "ab". -/
theorem C9_sign_dropped_from_identifier :
    tokenizer.parse_token 2 [ '+', 'a' ]
      = some (.ok (⟨.IDENTIFIER, "a"⟩, []))
    ∧ tokenizer.parse_token 2 [ '+', 'a', 'b' ]
      = some (.ok (⟨.IDENTIFIER, "ab"⟩, []))
    ∧ "a" ≠ "+a" :=
  ⟨rfl, rfl, by decide⟩

/-- C5 (counterexample): a number token or a character token at the head of
    the stream makes parse_simple return a parser-error result, not a
    Complete datum as the claim requires. -/
theorem C5_counterexample :
    (parser.parse_simple ⟨[⟨"token", "number", "42"⟩], []⟩).1.type
      = "parser-error"
    ∧ (parser.parse_simple ⟨[⟨"token", "character", "c"⟩], []⟩).1.type
      = "parser-error"
    ∧ "parser-error" ≠ "complete" :=
  ⟨rfl, rfl, by decide⟩

/-- C5 (amended): parse_simple returns Complete only for identifier, string,
    boolean-true and boolean-false tokens (Symbol, String, Boolean true,
    Boolean false respectively), consuming the token; number and character
    tokens are not simple datums to it and produce a ParserError that leaves
    the token unconsumed. -/
theorem C5_parse_simple_cases (n : parser.LexResult)
    (rest lx : List parser.LexResult) :
    (n.token_type = "string" →
      parser.parse_simple ⟨n :: rest, lx⟩
        = (parser.Complete (Data.String n.str), ⟨rest, lx⟩))
    ∧ (n.token_type = "identifier" →
      parser.parse_simple ⟨n :: rest, lx⟩
        = (parser.Complete (Data.Symbol n.str), ⟨rest, lx⟩))
    ∧ (n.token_type = "boolean-true" →
      parser.parse_simple ⟨n :: rest, lx⟩
        = (parser.Complete (Data.Boolean true), ⟨rest, lx⟩))
    ∧ (n.token_type = "boolean-false" →
      parser.parse_simple ⟨n :: rest, lx⟩
        = (parser.Complete (Data.Boolean false), ⟨rest, lx⟩))
    ∧ (n.token_type = "number" →
      parser.parse_simple ⟨n :: rest, lx⟩
        = (parser.ParserError n "could not match to simple datum",
           ⟨n :: rest, lx⟩))
    ∧ (n.token_type = "character" →
      parser.parse_simple ⟨n :: rest, lx⟩
        = (parser.ParserError n "could not match to simple datum",
           ⟨n :: rest, lx⟩)) := by
  refine ⟨?_, ?_, ?_, ?_, ?_, ?_⟩ <;> intro h <;>
    simp [parser.parse_simple, parser.ParserInput.peek, parser.ParserInput.get,
          h]

/-- C5 (witness): an identifier token yields a Complete Symbol and a number
    token yields a ParserError. -/
theorem C5_witness :
    parser.parse_simple ⟨[⟨"token", "identifier", "foo"⟩], []⟩
      = (parser.Complete (Data.Symbol "foo"), ⟨[], []⟩)
    ∧ parser.parse_simple ⟨[⟨"token", "number", "42"⟩], []⟩
      = (parser.ParserError ⟨"token", "number", "42"⟩
           "could not match to simple datum",
         ⟨[⟨"token", "number", "42"⟩], []⟩) :=
  ⟨(C5_parse_simple_cases ⟨"token", "identifier", "foo"⟩ [] []).2.1 rfl,
   (C5_parse_simple_cases ⟨"token", "number", "42"⟩ [] []).2.2.2.2.1 rfl⟩

/-- C6 (counterexample): a backtick token at the head of the stream makes
    parse_datum return a parser-error result with the stream unchanged —
    not the Complete quasiquote wrapping the claim requires. -/
theorem C6_counterexample :
    parser.parse_datum 8
      ⟨[⟨"token", "backtick", "bq"⟩, ⟨"token", "identifier", "a"⟩], []⟩
      = .ok (parser.ParserError ⟨"token", "backtick", "bq"⟩
               "could not parse non-simple datum",
             ⟨[⟨"token", "backtick", "bq"⟩, ⟨"token", "identifier", "a"⟩], []⟩)
    ∧ "parser-error" ≠ "complete" :=
  ⟨rfl, by decide⟩

/-- C6 (amended): only the quote token is handled by parse_datum: it reads
    the sub-datum and wraps a complete result as (quote x), and on a
    non-complete sub-parse it ungets the consumed quote token so the head
    of the stream is restored; backtick, comma and comma-at tokens are not
    recognized and produce a ParserError with the stream unchanged. -/
theorem C6_quote_handling (fuel : Nat) (t : parser.LexResult)
    (rest lx : List parser.LexResult) :
    (t.token_type = "quote" →
      ∀ (pr : parser.ParserResult) (s2 : parser.ParserInput),
        parser.parse_datum fuel ⟨rest, lx⟩ = .ok (pr, s2) →
        (pr.type = "complete" →
          parser.parse_datum (fuel+2) ⟨t :: rest, lx⟩
            = .ok (parser.Complete (Data.Pair (Data.Symbol "quote")
                     (Data.Pair (pr.it.getD Data.Null) Data.Null)), s2))
        ∧ (pr.type ≠ "complete" →
          parser.parse_datum (fuel+2) ⟨t :: rest, lx⟩
            = .ok (pr, ⟨t :: s2.tokens, s2.lex⟩)))
    ∧ ((t.token_type = "backtick" ∨ t.token_type = "comma"
        ∨ t.token_type = "comma-at") →
      parser.parse_datum (fuel+2) ⟨t :: rest, lx⟩
        = .ok (parser.ParserError t "could not parse non-simple datum",
               ⟨t :: rest, lx⟩)) := by
  constructor
  · intro ht pr s2 hsub
    have key : parser.parse_datum (fuel+2) ⟨t :: rest, lx⟩
        = parser.parse_quote_or_other (fuel+1) ⟨t :: rest, lx⟩ := by
      simp [parser.parse_datum, parser.ParserInput.peek, ht]
    constructor <;> intro hc
    · rw [key]
      simp [parser.parse_quote_or_other, parser.ParserInput.peek,
            parser.ParserInput.get, ht, hsub, exceptOkBind,
            parser.ParserResult.is_complete, hc, coreList]
    · rw [key]
      simp [parser.parse_quote_or_other, parser.ParserInput.peek,
            parser.ParserInput.get, ht, hsub, exceptOkBind,
            parser.ParserResult.is_complete, hc, parser.ParserInput.unget]
  · intro ht
    have key : parser.parse_datum (fuel+2) ⟨t :: rest, lx⟩
        = parser.parse_quote_or_other (fuel+1) ⟨t :: rest, lx⟩ := by
      rcases ht with h | h | h <;>
        simp [parser.parse_datum, parser.ParserInput.peek, h]
    rw [key]
    rcases ht with h | h | h <;>
      simp [parser.parse_quote_or_other, parser.parse_simple,
            parser.ParserInput.peek, parser.ParserInput.get, h,
            parser.ParserResult.is_complete, parser.ParserError]

/-- C6 (witness): quoting an identifier yields (quote a); a quote token
    whose sub-parse fails is pushed back onto the stream; a backtick token
    yields a ParserError. -/
theorem C6_witness :
    parser.parse_datum 8
      ⟨[⟨"token", "quote", "q"⟩, ⟨"token", "identifier", "a"⟩], []⟩
      = .ok (parser.Complete (Data.Pair (Data.Symbol "quote")
               (Data.Pair (Data.Symbol "a") Data.Null)), ⟨[], []⟩)
    ∧ parser.parse_datum 8 ⟨[⟨"token", "quote", "q"⟩], []⟩
      = .ok (parser.ParserError parser.streamEnd
               "could not parse non-simple datum",
             ⟨[⟨"token", "quote", "q"⟩], []⟩)
    ∧ parser.parse_datum 8 ⟨[⟨"token", "backtick", "bq"⟩], []⟩
      = .ok (parser.ParserError ⟨"token", "backtick", "bq"⟩
               "could not parse non-simple datum",
             ⟨[⟨"token", "backtick", "bq"⟩], []⟩) :=
  ⟨((C6_quote_handling 6 ⟨"token", "quote", "q"⟩
      [⟨"token", "identifier", "a"⟩] []).1 rfl
      (parser.Complete (Data.Symbol "a")) ⟨[], []⟩ rfl).1 rfl,
   ((C6_quote_handling 6 ⟨"token", "quote", "q"⟩ [] []).1 rfl
      (parser.ParserError parser.streamEnd "could not parse non-simple datum")
      ⟨[], []⟩ rfl).2 (by decide),
   (C6_quote_handling 6 ⟨"token", "backtick", "bq"⟩ [] []).2 (Or.inl rfl)⟩

/-- C7 (counterexample): in (a . (b) c) the standalone dot is consumed,
    one datum — the proper list (b) — is accepted as the tail, the very
    next token is the identifier c and not the closing parenthesis, and
    yet the parse returns Complete with the spliced list (a b c); so the
    claim that the token after the improper tail must be the closing
    parenthesis fails when the tail is itself a proper list. -/
theorem C7_splice_counterexample :
    parser.parse_datum 32
      ⟨[⟨"token", "paren-left", "("⟩, ⟨"token", "identifier", "a"⟩,
        ⟨"token", "dot", "."⟩, ⟨"token", "paren-left", "("⟩,
        ⟨"token", "identifier", "b"⟩, ⟨"token", "paren-right", ")"⟩,
        ⟨"token", "identifier", "c"⟩, ⟨"token", "paren-right", ")"⟩], []⟩
      = .ok (parser.Complete
               (Data.Pair (Data.Symbol "a")
                 (Data.Pair (Data.Symbol "b")
                   (Data.Pair (Data.Symbol "c") Data.Null))), ⟨[], []⟩)
    ∧ "identifier" ≠ "paren-right" :=
  ⟨rfl, by decide⟩

/-- C7 (amended): once the accumulated list has become improper (the
    appended dot tail was not a proper list), the parse_list loop returns
    Complete only when the very next token is the closing parenthesis —
    any further datum makes core::append throw; concretely, (a . b c)
    aborts with a TypeError and is not parsed as a Complete datum, while
    (a . b) parses Complete as the improper pair. -/
theorem C7_dot_tail_behavior :
    (∀ (fuel : Nat) (acc : Data) (s : parser.ParserInput)
      (r : parser.ParserResult) (s2 : parser.ParserInput),
      isProperList acc = false →
      parser.parse_list_loop fuel acc s = .ok (r, s2) →
      r.type = "complete" →
      (parser.ParserInput.peek s).1.token_type = "paren-right")
    ∧ parser.parse_datum 32
      ⟨[⟨"token", "paren-left", "("⟩, ⟨"token", "identifier", "a"⟩,
        ⟨"token", "dot", "."⟩, ⟨"token", "identifier", "b"⟩,
        ⟨"token", "identifier", "c"⟩, ⟨"token", "paren-right", ")"⟩], []⟩
      = .error .typeError
    ∧ parser.parse_datum 32
      ⟨[⟨"token", "paren-left", "("⟩, ⟨"token", "identifier", "a"⟩,
        ⟨"token", "dot", "."⟩, ⟨"token", "identifier", "b"⟩,
        ⟨"token", "paren-right", ")"⟩], []⟩
      = .ok (parser.Complete (Data.Pair (Data.Symbol "a") (Data.Symbol "b")),
             ⟨[], []⟩) := by
  refine ⟨?_, rfl, rfl⟩
  intro fuel acc s r s2 himp hok hcomp
  cases fuel with
  | zero => exact absurd hok (by simp [parser.parse_list_loop])
  | succ fuel =>
    rcases hp : parser.ParserInput.peek s with ⟨p, s1⟩
    by_cases hpr : (p.token_type == "paren-right") = true
    · exact eq_of_beq hpr
    · exfalso
      simp only [parser.parse_list_loop, hp, hpr, Bool.false_eq_true,
                 if_false] at hok
      rcases hd : parser.parse_datum fuel s1 with e | ⟨dres, in2⟩
      · rw [hd, exceptErrBind] at hok
        exact absurd hok (by simp)
      · rw [hd, exceptOkBind] at hok
        by_cases hdc : dres.is_complete = true
        · rw [if_pos hdc, coreAppend_not_proper _ _ himp] at hok
          exact absurd hok (by simp [exceptErrBind])
        · rw [if_neg hdc] at hok
          rcases hp2 : parser.ParserInput.peek in2 with ⟨pd, in3⟩
          rw [hp2] at hok
          by_cases hdot : (pd.token_type == "dot") = true
          · rw [if_pos hdot] at hok
            rcases hg : parser.ParserInput.get in3 with ⟨tg, in4⟩
            rw [hg] at hok
            rcases hd2 : parser.parse_datum fuel in4 with e2 | ⟨dres2, in5⟩
            · rw [hd2, exceptErrBind] at hok
              exact absurd hok (by simp)
            · rw [hd2, exceptOkBind] at hok
              by_cases hdc2 : dres2.is_complete = true
              · rw [if_pos hdc2, coreAppend_not_proper _ _ himp] at hok
                exact absurd hok (by simp [exceptErrBind])
              · rw [if_neg hdc2] at hok
                have hr : r = parser.ParserError dres2.lex_result
                    "could not match to last datum for improper list" := by
                  have h2 := hok
                  simp only [Except.ok.injEq, Prod.mk.injEq] at h2
                  exact h2.1.symm
                rw [hr] at hcomp
                simp [parser.ParserError] at hcomp
          · rw [if_neg hdot] at hok
            have hr : r = dres := by
              have h2 := hok
              simp only [Except.ok.injEq, Prod.mk.injEq] at h2
              exact h2.1.symm
            apply hdc
            rw [hr] at hcomp
            simp [parser.ParserResult.is_complete, hcomp]

/-- C7 (witness): with the improper accumulated list (x . y) and a closing
    parenthesis as the next token, the loop completes and the next token
    is indeed the closing parenthesis. -/
theorem C7_witness :
    (parser.ParserInput.peek
      ⟨[⟨"token", "paren-right", ")"⟩], []⟩).1.token_type = "paren-right" :=
  C7_dot_tail_behavior.1 1
    (Data.Pair (Data.Symbol "x") (Data.Symbol "y"))
    ⟨[⟨"token", "paren-right", ")"⟩], []⟩
    (parser.Complete (Data.Pair (Data.Symbol "x") (Data.Symbol "y")))
    ⟨[], []⟩ rfl rfl rfl

/-- C10: pushing a lex result back with unget and then calling get returns
    exactly that result and restores the state (token queue and lexer) to
    what it was before the unget; and whenever peek returns a token, the
    immediately following get returns that same token from the queue
    without consulting the underlying lexer. -/
theorem C10_queue_pushback (s : parser.ParserInput) (t : parser.LexResult) :
    parser.ParserInput.get (parser.ParserInput.unget s t) = (t, s)
    ∧ (parser.LexResult.is_token (parser.ParserInput.peek s).1 = true →
       (parser.ParserInput.get (parser.ParserInput.peek s).2).1
          = (parser.ParserInput.peek s).1
       ∧ ((parser.ParserInput.get (parser.ParserInput.peek s).2).2).lex
          = ((parser.ParserInput.peek s).2).lex) := by
  constructor
  · rcases s with ⟨ts, lx⟩
    rfl
  · rcases s with ⟨ts, lx⟩
    cases ts with
    | nil =>
      intro h
      rcases hl : parser.scheme_lexer lx with ⟨t0, lx2⟩
      by_cases hT : t0.is_token = true
      · simp [parser.ParserInput.peek, hl, hT, parser.ParserInput.get]
      · simp [parser.ParserInput.peek, hl, hT] at h
    | cons t0 ts =>
      intro _
      simp [parser.ParserInput.peek, parser.ParserInput.get]

/-- C10 (witness): the pushback laws at a concrete queue of one identifier
    token. -/
theorem C10_witness :
    parser.ParserInput.get
      (parser.ParserInput.unget ⟨[⟨"token", "identifier", "a"⟩], []⟩
        ⟨"token", "number", "1"⟩)
      = (⟨"token", "number", "1"⟩, ⟨[⟨"token", "identifier", "a"⟩], []⟩)
    ∧ ((parser.ParserInput.get
          (parser.ParserInput.peek ⟨[⟨"token", "identifier", "a"⟩], []⟩).2).1
        = (parser.ParserInput.peek ⟨[⟨"token", "identifier", "a"⟩], []⟩).1
      ∧ ((parser.ParserInput.get
          (parser.ParserInput.peek ⟨[⟨"token", "identifier", "a"⟩], []⟩).2).2).lex
        = ((parser.ParserInput.peek ⟨[⟨"token", "identifier", "a"⟩], []⟩).2).lex) :=
  ⟨(C10_queue_pushback ⟨[⟨"token", "identifier", "a"⟩], []⟩
      ⟨"token", "number", "1"⟩).1,
   (C10_queue_pushback ⟨[⟨"token", "identifier", "a"⟩], []⟩
      ⟨"token", "number", "1"⟩).2 (by decide)⟩
